import Mathlib

set_option maxRecDepth 8000

/-!
Shallow embedding of the llamafile-launcher build pipeline:

* the model cache (`src/models.rs`, duplicated in `src/main.rs`),
* the streaming-download progress counter (`src/http_client.rs`),
* standalone-executable assembly (`src/llamafile_builder.rs`),
* container-image assembly and log relaying (`src/docker.rs`),
* the release-download helper of `src/main.rs`.

External effects (HTTP requests, subprocesses) are passed in as explicit
oracle arguments; the filesystem is threaded as explicit state.
-/

/-- Rust `str::split(sep)` on a character list: splits at every occurrence
of `sep` and always yields at least one (possibly empty) piece. -/
def splitChar (sep : Char) : List Char → List (List Char)
  | [] => [[]]
  | c :: cs =>
    match splitChar sep cs with
    | [] => [[]]
    | r :: rs => if c = sep then [] :: r :: rs else (c :: r) :: rs

/-- `pre` is an initial run of `s` (Rust `str::starts_with` on char lists). -/
def isSeqStart : List Char → List Char → Bool
  | [], _ => true
  | _ :: _, [] => false
  | a :: as, b :: bs => a = b && isSeqStart as bs

/-- Rust `str::starts_with` on strings. -/
def rustStartsWith (s pre : String) : Bool := isSeqStart pre.data s.data

/-- `needle` occurs contiguously inside `hay`. -/
def occursIn (needle : List Char) : List Char → Bool
  | [] => needle.isEmpty
  | c :: cs => isSeqStart needle (c :: cs) || occursIn needle cs

/-- The lines of a string: the pieces between newline characters. -/
def linesOf (s : String) : List String := (splitChar '\n' s.data).map String.mk

/-- Filesystem paths as normalized component lists (what a `PathBuf`
denotes: joining an empty segment does not change the path). -/
abbrev RPath := List String

/-- Rust `Path::join`: the pushed string may itself contain `/` separators;
empty segments are dropped (so `p.join("")` denotes the same path as `p`). -/
def pathJoin (base : RPath) (s : String) : RPath :=
  base ++ ((splitChar '/' s.data).map String.mk).filter (fun c => c ≠ "")

namespace Models

/-- Failures of `Models::get_model` / `Models::get_hf_model`
(src/models.rs): the filename-extraction `context` branch, or a failed
`download_to`. -/
inductive GetErr where
  | noFilename
  | netError
deriving DecidableEq

/-- `Models::get_model` (src/models.rs lines 63-78; duplicated as
`Models::get_model` in src/main.rs lines 191-206).  `fs` is the set of
existing paths, `base` the models directory, `netOk` whether the (at most
one) `download_to` call would succeed.  The returned `Bool` records whether
a network download was performed by this call. -/
def get_model (netOk : Bool) (fs : List RPath) (base : RPath) (url : String) :
    Except GetErr (List RPath × RPath × Bool) :=
  match (splitChar '/' url.data).getLast? with
  | none => Except.error GetErr.noFilename
  | some fnc =>
    let fn := String.mk fnc
    if (pathJoin base fn) ∈ fs then
      Except.ok (fs, pathJoin base fn, false)
    else if netOk then
      Except.ok (pathJoin base fn :: fs, pathJoin base fn, true)
    else Except.error GetErr.netError

/-- `Models::get_hf_model` (src/models.rs lines 41-61): the existence check
joins the single string `model ++ "/" ++ filename` to the base directory,
the download target and the returned path join the two components one after
the other. -/
def get_hf_model (netOk : Bool) (fs : List RPath) (base : RPath)
    (model filename : String) : Except GetErr (List RPath × RPath × Bool) :=
  if (pathJoin base (model ++ "/" ++ filename)) ∈ fs then
    Except.ok (fs, pathJoin (pathJoin base model) filename, false)
  else if netOk then
    Except.ok (pathJoin (pathJoin base model) filename :: fs,
      pathJoin (pathJoin base model) filename, true)
  else Except.error GetErr.netError

end Models

namespace HttpClient

/-- One iteration of the download loop of `HttpClient::download_to`
(src/http_client.rs lines 75-84) and of `from_url` (src/main.rs lines
371-380): `downloaded = min(downloaded + chunk.len(), total_size)`. -/
def progressStep (total d c : Nat) : Nat := min (d + c) total

/-- The `downloaded` counter after the stream delivered the given list of
chunk sizes. -/
def downloadedAfter (total : Nat) (chunks : List Nat) : Nat :=
  chunks.foldl (fun d c => progressStep total d c) 0

end HttpClient

/-- A regular file: its byte content and whether its permission bits mark
it executable. -/
structure FileEntry where
  content : String
  exec : Bool
deriving DecidableEq

/-- A filesystem: association list from path to file entry, newest entry
first (a fresh write shadows, i.e. truncates, an older one). -/
abbrev FS := List (RPath × FileEntry)

def lookupFS : FS → RPath → Option FileEntry
  | [], _ => none
  | (q, e) :: rest, p => if q = p then some e else lookupFS rest p

def existsFS (fs : FS) (p : RPath) : Bool := (lookupFS fs p).isSome

/-- Creating or truncating a file (`File::create` semantics). -/
def writeFile (fs : FS) (p : RPath) (e : FileEntry) : FS := (p, e) :: fs

/-- `set_permissions(Permissions::from_mode(0o755))` on a path: every entry
at that path gets its executable bit set, everything else is untouched. -/
def setExecFS : FS → RPath → FS
  | [], _ => []
  | (q, e) :: rest, p =>
    (if q = p then (q, { e with exec := true }) else (q, e)) :: setExecFS rest p

/-- The successful effect of `HttpClient::download_to(url, path,
set_executable)` (src/http_client.rs lines 44-88) and of `from_url`
(src/main.rs lines 323-384): the body is written to `path`, whose
executable bit is set exactly when requested. -/
def downloadTo (fs : FS) (p : RPath) (content : String) (setExecutable : Bool) : FS :=
  writeFile fs p { content := content, exec := setExecutable }

/-- One asset of the GitHub latest-release manifest. -/
structure GithubAsset where
  name : String
  browser_download_url : String
deriving DecidableEq

/-- Release-asset resolution, as performed identically in
src/llamafile_builder.rs lines 184-188 and src/main.rs lines 410-415: a
linear scan returning the first asset whose `name` starts with the
requested logical prefix. -/
def resolveAsset (assets : List GithubAsset) (pre : String) : Option GithubAsset :=
  assets.find? (fun a => rustStartsWith a.name pre)

/-- Error taxonomy of the pipeline (all surfaced as `anyhow` errors in the
source; the constructors distinguish the bail sites). -/
inductive BuildErr where
  | alreadyExists
  | networkError
  | parseError
  | assetNotFound
  | downloadError
  | ioError
  | noOutputSpecified
  | spawnError
  | waitError
  | panicAbort
deriving DecidableEq

namespace LlamafileBuilder

/-- `LlamafileBuilder::download_llamafile_github_release_into`
(src/llamafile_builder.rs lines 169-196).  `releaseFetch` is the outcome of
the GET on the fixed latest-release endpoint, `net` maps a download URL to
the outcome of `download_to`.  Note the trailing `false`: the source calls
`download_to(&asset.browser_download_url, path, false)`, i.e. does not
request the executable bit. -/
def download_llamafile_github_release_into (fs : FS) (path : RPath) (pre : String)
    (releaseFetch : Except BuildErr (List GithubAsset))
    (net : String → Except BuildErr String) : Except BuildErr FS :=
  if existsFS fs path then Except.error BuildErr.alreadyExists
  else
    match releaseFetch with
    | Except.error e => Except.error e
    | Except.ok assets =>
      match resolveAsset assets pre with
      | none => Except.error BuildErr.assetNotFound
      | some asset =>
        match net asset.browser_download_url with
        | Except.error e => Except.error e
        | Except.ok content => Except.ok (downloadTo fs path content false)

/-- Where `build` creates the `.args` manifest: inside the builder's temp
directory (src/llamafile_builder.rs line 105, `self.temp_path.join(".args")`). -/
def argsFilePath (tempPath : RPath) : RPath := tempPath ++ [".args"]

/-- The `.args` manifest content (src/llamafile_builder.rs lines 112-123);
the raw-string literal opens with a newline, so the content starts with an
empty line. -/
def argsFileContent (name : String) : String :=
  "\n-m\n" ++ name ++ "\n--host\n0.0.0.0\n"

/-- Rust `Path::file_name` on a component path. -/
def fileName (p : RPath) : Option String := p.getLast?

def joinChar (sep : Char) : List (List Char) → List Char
  | [] => []
  | [x] => x
  | x :: y :: ys => x ++ sep :: joinChar sep (y :: ys)

/-- Rust `Path::file_stem` applied to a file name: the portion before the
last dot, except that a lone leading dot stays part of the stem. -/
def rustFileStem (s : List Char) : List Char :=
  match splitChar '.' s with
  | [x] => x
  | [[], x] => '.' :: x
  | ps => joinChar '.' ps.dropLast

/-- `LlamafileBuilder::get_output_path` (src/llamafile_builder.rs lines
198-206): an explicit output path wins, else the output directory joined
with the first model's file stem, else an error.  The `unwrap` on
`file_stem` aborts the process when the model path has no final component. -/
def getOutputPath (outputDir : Option RPath) (model0 : RPath)
    (outputOpt : Option RPath) : Except BuildErr RPath :=
  match outputOpt with
  | some p => Except.ok p
  | none =>
    match outputDir with
    | some d =>
      match fileName model0 with
      | some n => Except.ok (d ++ [String.mk (rustFileStem n.data)])
      | none => Except.error BuildErr.panicAbort
    | none => Except.error BuildErr.noOutputSpecified

/-- Outcome of `Command::spawn()?.wait().await?`: the spawn may fail, the
wait may fail with an I/O error, or the child exits with a status code. -/
inductive SpawnOutcome where
  | spawnFail
  | waitFail
  | exited (code : Int)
deriving DecidableEq

inductive CmdArg where
  | lit (s : String)
  | path (p : RPath)
deriving DecidableEq

/-- A spawned external command: program and argument list, in order. -/
structure CmdCall where
  program : RPath
  args : List CmdArg
deriving DecidableEq

/-- `LlamafileBuilder::build` (src/llamafile_builder.rs lines 74-154).
`model0` is `models[0]` (the source indexes only the first model and
panics when the slice is empty); `releaseFetch`/`net` are the oracles for
the two possible release downloads; `zipalignRun` is the outcome of the
zipalign subprocess.  Returns the overall result, the filesystem as left
behind, and the spawned external commands.  The `ExitStatus` produced by
`wait()` is discarded by the source (`.spawn()?.wait().await?;` never
inspects the status), which the final match mirrors: `exited _` yields
success whatever the code. -/
def build (fs0 : FS) (tempPath llamafilePath zipalignPath : RPath)
    (outputDir : Option RPath) (outputOpt : Option RPath) (model0 : RPath)
    (releaseFetch : Except BuildErr (List GithubAsset))
    (net : String → Except BuildErr String)
    (zipalignRun : SpawnOutcome) :
    Except BuildErr Unit × FS × List CmdCall :=
  match (if existsFS fs0 llamafilePath then Except.ok fs0
         else download_llamafile_github_release_into fs0 llamafilePath
           "llamafile-server" releaseFetch net) with
  | Except.error e => (Except.error e, fs0, [])
  | Except.ok fs1 =>
    match lookupFS fs1 llamafilePath with
    | none => (Except.error BuildErr.ioError, fs1, [])
    | some llamaEntry =>
      match getOutputPath outputDir model0 outputOpt with
      | Except.error e => (Except.error e, fs1, [])
      | Except.ok output =>
        if existsFS fs1 output then (Except.error BuildErr.alreadyExists, fs1, [])
        else
          let fs2 := writeFile fs1 output { content := llamaEntry.content, exec := true }
          if existsFS fs2 (argsFilePath tempPath) then
            (Except.error BuildErr.alreadyExists, fs2, [])
          else
            match fileName model0 with
            | none =>
              (Except.error BuildErr.panicAbort,
                writeFile fs2 (argsFilePath tempPath) { content := "", exec := false }, [])
            | some name =>
              let fs3 := writeFile fs2 (argsFilePath tempPath)
                { content := argsFileContent name, exec := false }
              match (if existsFS fs3 zipalignPath then Except.ok fs3
                     else download_llamafile_github_release_into fs3 zipalignPath
                       "zipalign" releaseFetch net) with
              | Except.error e => (Except.error e, fs3, [])
              | Except.ok fs4 =>
                match lookupFS fs4 zipalignPath with
                | none => (Except.error BuildErr.ioError, fs4, [])
                | some _ =>
                  let fs5 := setExecFS fs4 zipalignPath
                  let call : CmdCall :=
                    { program := zipalignPath,
                      args := [CmdArg.lit "-j0", CmdArg.path output,
                        CmdArg.path model0, CmdArg.path (argsFilePath tempPath)] }
                  match zipalignRun with
                  | SpawnOutcome.spawnFail => (Except.error BuildErr.spawnError, fs5, [call])
                  | SpawnOutcome.waitFail => (Except.error BuildErr.waitError, fs5, [call])
                  | SpawnOutcome.exited _ => (Except.ok (), fs5, [call])

end LlamafileBuilder

namespace MainSrc

/-- `download_llamafile_release` (src/main.rs lines 395-422): fetches the
latest-release manifest, resolves the first prefix-matching asset and
downloads its `browser_download_url` into `filePath` via
`from_url(..., true)`, i.e. requesting the executable bit.  It performs no
existence check of its own. -/
def download_llamafile_release (fs : FS) (filePath : RPath)
    (releaseStartsWith : String)
    (releaseFetch : Except BuildErr (List GithubAsset))
    (net : String → Except BuildErr String) : Except BuildErr (FS × RPath) :=
  match releaseFetch with
  | Except.error e => Except.error e
  | Except.ok assets =>
    match resolveAsset assets releaseStartsWith with
    | none => Except.error BuildErr.assetNotFound
    | some asset =>
      match net asset.browser_download_url with
      | Except.error e => Except.error e
      | Except.ok content => Except.ok (downloadTo fs filePath content true, filePath)

/-- The serving-executable acquisition step of `main` (src/main.rs lines
263-276): the path is checked for existence first; only on a miss with the
download flag set does `download_llamafile_release` run; a miss without the
flag terminates the process. -/
def acquireLlamafileServer (fs : FS) (llamaPath : RPath) (downloadFlag : Bool)
    (releaseFetch : Except BuildErr (List GithubAsset))
    (net : String → Except BuildErr String) : Except BuildErr (FS × RPath) :=
  if existsFS fs llamaPath then Except.ok (fs, llamaPath)
  else if downloadFlag then
    download_llamafile_release fs llamaPath "llamafile-server" releaseFetch net
  else Except.error BuildErr.ioError

end MainSrc

namespace Docker

/-- One entry of the build-context tar archive: in-archive name, content,
and the explicitly set mode when the entry is written from memory
(`append_path_with_name` keeps the on-disk metadata, modelled as `none`). -/
structure TarEntry where
  name : String
  content : String
  mode : Option Nat
deriving DecidableEq

/-- `Docker::dockerfile` (src/docker.rs lines 52-79): fixed preamble, one
COPY line per model indexed from 0, fixed trailer whose entrypoint names
only `model-0`. -/
def dockerfile (models_path : List String) : String :=
  "\nFROM debian:bullseye-slim AS final\nRUN addgroup --gid 1000 user\nRUN adduser --uid 1000 --gid 1000 --disabled-password --gecos \"\" user\nUSER user\nWORKDIR /usr/src/app\nCOPY /llamafile-server ./llamafile-server\n"
    ++ String.join (models_path.enum.map
        (fun ic => "COPY /model-" ++ toString ic.fst ++ " ./model-" ++ toString ic.fst ++ "\n"))
    ++ "\n# Expose 8080 port.\nEXPOSE 8080\n\n# Set entrypoint.\nENTRYPOINT [\"/bin/sh\", \"/usr/src/app/llamafile-server\", \"-m\", \"/usr/src/app/model-0\", \"--host\", \"0.0.0.0\"]\n"

/-- `Docker::tarball` (src/docker.rs lines 81-111): the serving executable
is appended first under the fixed in-archive name `./llamafile-server`,
then the Dockerfile from memory with mode `0o755`, then the models renamed
`./model-i` in input order.  `readFile` is the outcome of reading each
appended source path. -/
def tarball (readFile : String → Except BuildErr String) (dockerfileText : String)
    (models_path : List String) (llama_path : String) :
    Except BuildErr (List TarEntry) := do
  let llamaData ← readFile llama_path
  let modelEntries ← models_path.enum.mapM (fun ic => do
    let d ← readFile ic.snd
    pure ({ name := "./model-" ++ toString ic.fst, content := d, mode := none } : TarEntry))
  pure ({ name := "./llamafile-server", content := llamaData, mode := none }
    :: { name := "./Dockerfile", content := dockerfileText, mode := some 0o755 }
    :: modelEntries)

/-- A build-log event as relayed to the caller: `info!` for each Ok stream
item, `error!` for each Err stream item. -/
inductive LogEvent where
  | infoMsg (m : String)
  | errorMsg (e : String)
deriving DecidableEq

/-- The stream-draining loop of `Docker::build_image` (src/docker.rs lines
41-47): every item is relayed, no item aborts the loop. -/
def relayStream : List (Except String String) → List LogEvent
  | [] => []
  | Except.ok m :: rest => LogEvent.infoMsg m :: relayStream rest
  | Except.error e :: rest => LogEvent.errorMsg e :: relayStream rest

/-- `Docker::build_image` (src/docker.rs lines 17-50): generate the
Dockerfile, build the tarball (fatal on failure, before any daemon call),
submit, drain the progress stream relaying each item, then return `Ok(())`
unconditionally — the function never inspects the stream for a daemon
failure. -/
def build_image (readFile : String → Except BuildErr String) (image_name : String)
    (model_path : List String) (llama_path : String)
    (stream : List (Except String String)) : Except BuildErr Unit × List LogEvent :=
  match tarball readFile (dockerfile model_path) model_path llama_path with
  | Except.error e => (Except.error e, [])
  | Except.ok _ => (Except.ok (), relayStream stream)

end Docker

/-! ## Helper lemmas -/

theorem splitChar_ne_nil (sep : Char) (l : List Char) : splitChar sep l ≠ [] := by
  cases l with
  | nil => simp [splitChar]
  | cons c cs =>
    simp only [splitChar]
    cases h : splitChar sep cs with
    | nil => simp
    | cons r rs => by_cases hc : c = sep <;> simp [hc]

theorem splitChar_append (sep : Char) (xs ys : List Char) :
    splitChar sep (xs ++ sep :: ys) = splitChar sep xs ++ splitChar sep ys := by
  induction xs with
  | nil =>
    simp only [List.nil_append, splitChar]
    cases h : splitChar sep ys with
    | nil => exact absurd h (splitChar_ne_nil sep ys)
    | cons r rs => simp
  | cons x xs ih =>
    cases h : splitChar sep xs with
    | nil => exact absurd h (splitChar_ne_nil sep xs)
    | cons r rs =>
      by_cases hx : x = sep <;> simp [splitChar, ih, h, hx]

theorem splitChar_not_mem (sep : Char) (l : List Char) (h : sep ∉ l) :
    splitChar sep l = [l] := by
  induction l with
  | nil => rfl
  | cons c cs ih =>
    have hc : ¬(c = sep) := fun e => h (by simp [e])
    have hcs : sep ∉ cs := fun m => h (List.mem_cons_of_mem _ m)
    simp [splitChar, ih hcs, hc]

theorem strData_append (s t : String) : (s ++ t).data = s.data ++ t.data := by
  cases s
  cases t
  rfl

theorem strMk_data (s : String) : String.mk s.data = s := by
  cases s
  rfl

theorem pathJoin_concat (b : RPath) (m f : String) :
    pathJoin b (m ++ "/" ++ f) = pathJoin (pathJoin b m) f := by
  have hdata : (m ++ "/" ++ f).data = m.data ++ '/' :: f.data := by
    rw [strData_append, strData_append, show "/".data = ['/'] from rfl,
      List.append_assoc]
    rfl
  simp [pathJoin, hdata, splitChar_append, List.filter_append, List.append_assoc]

theorem lookupFS_writeFile (fs : FS) (p q : RPath) (e : FileEntry) :
    lookupFS (writeFile fs p e) q = if p = q then some e else lookupFS fs q := by
  simp [writeFile, lookupFS]

theorem lookupFS_cons (r : RPath) (re : FileEntry) (rest : FS) (q : RPath) :
    lookupFS ((r, re) :: rest) q = if r = q then some re else lookupFS rest q := rfl

theorem setExecFS_cons (r : RPath) (re : FileEntry) (rest : FS) (p : RPath) :
    setExecFS ((r, re) :: rest) p =
      (if r = p then (r, { re with exec := true }) else (r, re)) :: setExecFS rest p := rfl

theorem lookupFS_setExecFS (fs : FS) (p q : RPath) :
    lookupFS (setExecFS fs p) q =
      (lookupFS fs q).map (fun e => if p = q then { e with exec := true } else e) := by
  induction fs with
  | nil => simp [setExecFS, lookupFS]
  | cons pe rest ih =>
    obtain ⟨r, re⟩ := pe
    rw [setExecFS_cons]
    by_cases hp : r = p
    · rw [if_pos hp]
      simp only [lookupFS_cons]
      by_cases hq : r = q
      · rw [if_pos hq, if_pos hq]
        simp [show p = q from hp.symm.trans hq]
      · rw [if_neg hq, if_neg hq, ih]
    · rw [if_neg hp]
      simp only [lookupFS_cons]
      by_cases hq : r = q
      · rw [if_pos hq, if_pos hq]
        have hpq : ¬(p = q) := fun e => hp (hq.trans e.symm)
        simp [hpq]
      · rw [if_neg hq, if_neg hq, ih]

theorem existsFS_eq_true (fs : FS) (p : RPath) (e : FileEntry)
    (h : lookupFS fs p = some e) : existsFS fs p = true := by
  simp [existsFS, h]

theorem existsFS_eq_false (fs : FS) (p : RPath)
    (h : lookupFS fs p = none) : existsFS fs p = false := by
  simp [existsFS, h]

theorem downloadedAfter_fold (total d : Nat) (chunks : List Nat) (hd : d ≤ total) :
    chunks.foldl (fun d c => HttpClient.progressStep total d c) d
      = min (d + chunks.sum) total := by
  induction chunks generalizing d with
  | nil => simpa [HttpClient.progressStep] using Nat.min_eq_left hd
  | cons c cs ih =>
    have hstep : HttpClient.progressStep total d c ≤ total := by
      simp [HttpClient.progressStep]
    rw [List.foldl_cons, ih (HttpClient.progressStep total d c) hstep]
    simp only [HttpClient.progressStep, List.sum_cons]
    omega

theorem downloadedAfter_eq_min (total : Nat) (chunks : List Nat) :
    HttpClient.downloadedAfter total chunks = min chunks.sum total := by
  simpa using downloadedAfter_fold total 0 chunks (Nat.zero_le total)

/-- Unfolding of `LlamafileBuilder.build` on an invocation that reaches the
zipalign spawn: the serving executable and the alignment tool are present,
the output path resolves and is free, and the `.args` path is free. -/
theorem build_reaches_spawn
    (fs0 : FS) (tempPath llamafilePath zipalignPath : RPath)
    (outputDir : Option RPath) (outputOpt : Option RPath) (model0 : RPath)
    (releaseFetch : Except BuildErr (List GithubAsset))
    (net : String → Except BuildErr String)
    (en zen : FileEntry) (out : RPath) (name : String)
    (h1 : lookupFS fs0 llamafilePath = some en)
    (h2 : LlamafileBuilder.getOutputPath outputDir model0 outputOpt = Except.ok out)
    (h3 : lookupFS fs0 out = none)
    (h4 : lookupFS fs0 (LlamafileBuilder.argsFilePath tempPath) = none)
    (h5 : LlamafileBuilder.fileName model0 = some name)
    (h6 : lookupFS fs0 zipalignPath = some zen)
    (h7 : out ≠ LlamafileBuilder.argsFilePath tempPath)
    (zipalignRun : LlamafileBuilder.SpawnOutcome) :
    LlamafileBuilder.build fs0 tempPath llamafilePath zipalignPath outputDir outputOpt model0
        releaseFetch net zipalignRun =
      ((match zipalignRun with
        | LlamafileBuilder.SpawnOutcome.spawnFail => Except.error BuildErr.spawnError
        | LlamafileBuilder.SpawnOutcome.waitFail => Except.error BuildErr.waitError
        | LlamafileBuilder.SpawnOutcome.exited _ => Except.ok ()),
       setExecFS (writeFile (writeFile fs0 out { content := en.content, exec := true })
           (LlamafileBuilder.argsFilePath tempPath)
           { content := LlamafileBuilder.argsFileContent name, exec := false }) zipalignPath,
       [{ program := zipalignPath,
          args := [LlamafileBuilder.CmdArg.lit "-j0", LlamafileBuilder.CmdArg.path out,
            LlamafileBuilder.CmdArg.path model0,
            LlamafileBuilder.CmdArg.path (LlamafileBuilder.argsFilePath tempPath)] }]) := by
  have hza : zipalignPath ≠ LlamafileBuilder.argsFilePath tempPath := by
    intro e
    rw [e, h4] at h6
    exact Option.noConfusion h6
  have hzo : zipalignPath ≠ out := by
    intro e
    rw [e, h3] at h6
    exact Option.noConfusion h6
  have hlook3 : lookupFS (writeFile (writeFile fs0 out { content := en.content, exec := true })
      (LlamafileBuilder.argsFilePath tempPath)
      { content := LlamafileBuilder.argsFileContent name, exec := false }) zipalignPath
      = some zen := by
    rw [lookupFS_writeFile, if_neg (fun e => hza e.symm), lookupFS_writeFile,
      if_neg (fun e => hzo e.symm), h6]
  have e1 : existsFS fs0 llamafilePath = true := existsFS_eq_true _ _ _ h1
  have e2 : existsFS fs0 out = false := existsFS_eq_false _ _ h3
  have e3 : existsFS (writeFile fs0 out { content := en.content, exec := true })
      (LlamafileBuilder.argsFilePath tempPath) = false := by
    apply existsFS_eq_false
    rw [lookupFS_writeFile, if_neg h7, h4]
  have e4 : existsFS (writeFile (writeFile fs0 out { content := en.content, exec := true })
      (LlamafileBuilder.argsFilePath tempPath)
      { content := LlamafileBuilder.argsFileContent name, exec := false }) zipalignPath = true :=
    existsFS_eq_true _ _ _ hlook3
  simp only [LlamafileBuilder.build, e1, e2, e3, e4, h1, h2, h5, hlook3, if_true, if_false,
    Bool.true_eq_false, Bool.false_eq_true, ite_true, ite_false]
  cases zipalignRun <;> rfl

/-- The lines of the `.args` manifest: a leading empty line, then the four
arguments, then the empty piece after the final newline. -/
theorem linesOf_argsFileContent (name : String) (h : '\n' ∉ name.data) :
    linesOf (LlamafileBuilder.argsFileContent name)
      = ["", "-m", name, "--host", "0.0.0.0", ""] := by
  have hdata : (LlamafileBuilder.argsFileContent name).data
      = [] ++ '\n' :: (['-', 'm'] ++ '\n' :: (name.data ++ '\n' :: "--host\n0.0.0.0\n".data)) := by
    show (("\n-m\n" ++ name) ++ "\n--host\n0.0.0.0\n").data = _
    rw [strData_append, strData_append,
      show "\n-m\n".data = ['\n', '-', 'm', '\n'] from rfl,
      show "\n--host\n0.0.0.0\n".data = '\n' :: "--host\n0.0.0.0\n".data from rfl]
    simp
  rw [linesOf, hdata, splitChar_append, splitChar_append, splitChar_append,
    splitChar_not_mem '\n' name.data h,
    show splitChar '\n' "--host\n0.0.0.0\n".data
      = ["--host".data, "0.0.0.0".data, []] from rfl,
    show splitChar '\n' ([] : List Char) = [[]] from rfl,
    show splitChar '\n' ['-', 'm'] = [['-', 'm']] from rfl]
  simp [strMk_data]

theorem relayStream_eq_map (stream : List (Except String String)) :
    Docker.relayStream stream = stream.map (fun m =>
      match m with
      | Except.ok s => Docker.LogEvent.infoMsg s
      | Except.error e => Docker.LogEvent.errorMsg e) := by
  induction stream with
  | nil => rfl
  | cons m rest ih => cases m <;> simp [Docker.relayStream, ih]

/-! ## Claims -/

/-- Claim C2: caching is idempotent.  For both `get_model` (RemoteUrl) and
`get_hf_model` (HostedFile), a successful call downloads exactly when the
derived cache path does not already exist, and a second call on the
resulting state returns the same local path with no download at all
(regardless of network availability). -/
theorem claim_C2_idempotent_caching :
    (∀ (netOk : Bool) (fs : List RPath) (base : RPath) (url : String)
        (fs1 : List RPath) (p1 : RPath) (d1 : Bool),
      Models.get_model netOk fs base url = Except.ok (fs1, p1, d1) →
        (d1 = true ↔ p1 ∉ fs) ∧
        ∀ netOk2 : Bool,
          Models.get_model netOk2 fs1 base url = Except.ok (fs1, p1, false)) ∧
    (∀ (netOk : Bool) (fs : List RPath) (base : RPath) (model filename : String)
        (fs1 : List RPath) (p1 : RPath) (d1 : Bool),
      Models.get_hf_model netOk fs base model filename = Except.ok (fs1, p1, d1) →
        (d1 = true ↔ pathJoin base (model ++ "/" ++ filename) ∉ fs) ∧
        ∀ netOk2 : Bool,
          Models.get_hf_model netOk2 fs1 base model filename
            = Except.ok (fs1, p1, false)) := by
  constructor
  · intro netOk fs base url fs1 p1 d1 h
    cases hlast : (splitChar '/' url.data).getLast? with
    | none =>
      simp only [Models.get_model, hlast] at h
      exact Except.noConfusion h
    | some fnc =>
      simp only [Models.get_model, hlast] at h
      by_cases hmem : pathJoin base (String.mk fnc) ∈ fs
      · rw [if_pos hmem] at h
        simp only [Except.ok.injEq, Prod.mk.injEq] at h
        obtain ⟨hfs, hp, hd⟩ := h
        subst hfs
        subst hp
        subst hd
        refine ⟨by simp [hmem], fun netOk2 => ?_⟩
        simp only [Models.get_model, hlast]
        rw [if_pos hmem]
      · rw [if_neg hmem] at h
        cases netOk with
        | false => simp at h
        | true =>
          simp only [if_true] at h
          simp only [Except.ok.injEq, Prod.mk.injEq] at h
          obtain ⟨hfs, hp, hd⟩ := h
          subst hfs
          subst hp
          subst hd
          refine ⟨by simp [hmem], fun netOk2 => ?_⟩
          simp only [Models.get_model, hlast]
          rw [if_pos (List.mem_cons_self _ _)]
  · intro netOk fs base model filename fs1 p1 d1 h
    by_cases hmem : pathJoin base (model ++ "/" ++ filename) ∈ fs
    · rw [Models.get_hf_model, if_pos hmem] at h
      simp only [Except.ok.injEq, Prod.mk.injEq] at h
      obtain ⟨hfs, hp, hd⟩ := h
      subst hfs
      subst hp
      subst hd
      refine ⟨by simp [hmem], fun netOk2 => ?_⟩
      rw [Models.get_hf_model, if_pos hmem]
    · rw [Models.get_hf_model, if_neg hmem] at h
      cases netOk with
      | false => simp at h
      | true =>
        simp only [if_true] at h
        simp only [Except.ok.injEq, Prod.mk.injEq] at h
        obtain ⟨hfs, hp, hd⟩ := h
        subst hfs
        subst hp
        subst hd
        refine ⟨by simp [hmem], fun netOk2 => ?_⟩
        rw [Models.get_hf_model,
          if_pos (by rw [pathJoin_concat]; exact List.mem_cons_self _ _)]

/-- Witness for C2 at concrete inputs: a fresh cache performs the download
on the first call and none on the second, for both source kinds. -/
theorem claim_C2_idempotent_caching_witness :
    ((true = true ↔ (["models", "a.gguf"] : RPath) ∉ ([] : List RPath)) ∧
      ∀ netOk2 : Bool,
        Models.get_model netOk2 [["models", "a.gguf"]] ["models"] "http://h/a.gguf"
          = Except.ok ([["models", "a.gguf"]], ["models", "a.gguf"], false)) ∧
    ((true = true ↔ pathJoin ["models"] ("org/repo" ++ "/" ++ "w.gguf") ∉ ([] : List RPath)) ∧
      ∀ netOk2 : Bool,
        Models.get_hf_model netOk2 [["models", "org", "repo", "w.gguf"]] ["models"]
            "org/repo" "w.gguf"
          = Except.ok ([["models", "org", "repo", "w.gguf"]],
              ["models", "org", "repo", "w.gguf"], false)) :=
  ⟨claim_C2_idempotent_caching.1 true [] ["models"] "http://h/a.gguf"
      [["models", "a.gguf"]] ["models", "a.gguf"] true rfl,
   claim_C2_idempotent_caching.2 true [] ["models"] "org/repo" "w.gguf"
      [["models", "org", "repo", "w.gguf"]] ["models", "org", "repo", "w.gguf"] true rfl⟩

/-- Claim C6: release-asset resolution is a first-match prefix scan, and a
manifest with no matching asset makes the download helper fail with the
asset-not-found error. -/
theorem claim_C6_prefix_resolution :
    (∀ u1 u2 : String,
      resolveAsset [{ name := "zipalign-linux", browser_download_url := u1 },
          { name := "llamafile-server-v1", browser_download_url := u2 }] "zipalign"
        = some { name := "zipalign-linux", browser_download_url := u1 }) ∧
    (∀ u1 u2 : String,
      resolveAsset [{ name := "zipalign-linux", browser_download_url := u1 },
          { name := "llamafile-server-v1", browser_download_url := u2 }] "llamafile-server"
        = some { name := "llamafile-server-v1", browser_download_url := u2 }) ∧
    (∀ (assets : List GithubAsset) (pre : String) (fs : FS) (path : RPath)
        (net : String → Except BuildErr String),
      (∀ a ∈ assets, rustStartsWith a.name pre = false) →
      existsFS fs path = false →
      LlamafileBuilder.download_llamafile_github_release_into fs path pre
          (Except.ok assets) net
        = Except.error BuildErr.assetNotFound) := by
  refine ⟨fun u1 u2 => rfl, fun u1 u2 => rfl, ?_⟩
  intro assets pre fs path net hnone hfs
  have hres : resolveAsset assets pre = none := by
    rw [resolveAsset, List.find?_eq_none]
    intro a ha
    simp [hnone a ha]
  rw [LlamafileBuilder.download_llamafile_github_release_into, hfs]
  simp [hres]

/-- Witness for C6 at concrete inputs. -/
theorem claim_C6_prefix_resolution_witness :
    (resolveAsset [{ name := "zipalign-linux", browser_download_url := "u1" },
        { name := "llamafile-server-v1", browser_download_url := "u2" }] "zipalign"
      = some { name := "zipalign-linux", browser_download_url := "u1" }) ∧
    (resolveAsset [{ name := "zipalign-linux", browser_download_url := "u1" },
        { name := "llamafile-server-v1", browser_download_url := "u2" }] "llamafile-server"
      = some { name := "llamafile-server-v1", browser_download_url := "u2" }) ∧
    LlamafileBuilder.download_llamafile_github_release_into []
        ["t", "x"] "nonexistent"
        (Except.ok [{ name := "zipalign-linux", browser_download_url := "u1" },
          { name := "llamafile-server-v1", browser_download_url := "u2" }])
        (fun _ => Except.error BuildErr.networkError)
      = Except.error BuildErr.assetNotFound :=
  ⟨claim_C6_prefix_resolution.1 "u1" "u2",
   claim_C6_prefix_resolution.2.1 "u1" "u2",
   claim_C6_prefix_resolution.2.2 _ "nonexistent" [] ["t", "x"] _
     (by decide) rfl⟩

/-- Claim C7: the `downloaded` counter is non-decreasing chunk by chunk,
never exceeds the advertised total, and reaches exactly the total when the
stream delivered that many bytes. -/
theorem claim_C7_progress_monotone :
    (∀ (total : Nat) (chunks : List Nat) (c : Nat),
      HttpClient.downloadedAfter total chunks
        ≤ HttpClient.downloadedAfter total (chunks ++ [c])) ∧
    (∀ (total : Nat) (chunks : List Nat),
      HttpClient.downloadedAfter total chunks ≤ total) ∧
    (∀ (total : Nat) (chunks : List Nat),
      chunks.sum = total → HttpClient.downloadedAfter total chunks = total) := by
  refine ⟨?_, ?_, ?_⟩
  · intro total chunks c
    rw [downloadedAfter_eq_min, downloadedAfter_eq_min, List.sum_append]
    simp only [List.sum_cons, List.sum_nil]
    omega
  · intro total chunks
    rw [downloadedAfter_eq_min]
    omega
  · intro total chunks h
    rw [downloadedAfter_eq_min, h]
    omega

/-- Witness for C7 at concrete inputs. -/
theorem claim_C7_progress_monotone_witness :
    HttpClient.downloadedAfter 12 [3, 4] ≤ HttpClient.downloadedAfter 12 ([3, 4] ++ [5]) ∧
    HttpClient.downloadedAfter 12 [3, 4, 5, 9] ≤ 12 ∧
    HttpClient.downloadedAfter 12 [3, 4, 5] = 12 :=
  ⟨claim_C7_progress_monotone.1 12 [3, 4] 5,
   claim_C7_progress_monotone.2.1 12 [3, 4, 5, 9],
   claim_C7_progress_monotone.2.2 12 [3, 4, 5] (by decide)⟩

/-- Claim C10: the filename-extraction error branch of `get_model` is
unreachable — splitting any URL at `/` always has a last piece — and for a
URL ending in `/` the derived file name is empty, so the existence check
inspects the cache root itself and the call returns the cache root path
without downloading. -/
theorem claim_C10_filename_extraction_total :
    (∀ (netOk : Bool) (fs : List RPath) (base : RPath) (url : String),
      Models.get_model netOk fs base url ≠ Except.error Models.GetErr.noFilename) ∧
    (∀ (netOk : Bool) (fs : List RPath) (base : RPath) (s : String),
      base ∈ fs →
        Models.get_model netOk fs base (s ++ "/") = Except.ok (fs, base, false)) := by
  constructor
  · intro netOk fs base url
    cases hlast : (splitChar '/' url.data).getLast? with
    | none =>
      exact absurd (List.getLast?_eq_none_iff.mp hlast) (splitChar_ne_nil '/' url.data)
    | some fnc =>
      simp only [Models.get_model, hlast]
      by_cases hmem : pathJoin base (String.mk fnc) ∈ fs
      · rw [if_pos hmem]
        simp
      · rw [if_neg hmem]
        cases netOk <;> simp
  · intro netOk fs base s hbase
    have hdata : (s ++ "/").data = s.data ++ '/' :: [] := by
      rw [strData_append]
    have hlast : (splitChar '/' (s ++ "/").data).getLast? = some [] := by
      rw [hdata, splitChar_append]
      exact List.getLast?_concat _
    simp only [Models.get_model, hlast]
    have hjoin : pathJoin base (String.mk []) = base := by
      rw [pathJoin,
        show ((splitChar '/' (String.mk []).data).map String.mk).filter
          (fun c => c ≠ "") = [] from rfl, List.append_nil]
    rw [hjoin, if_pos hbase]

/-- Witness for C10: with the cache root present, a URL ending in `/`
resolves to the cache root itself, downloading nothing. -/
theorem claim_C10_filename_extraction_total_witness :
    Models.get_model true [["models"]] ["models"] ("http://h" ++ "/")
      = Except.ok ([["models"]], ["models"], false) :=
  claim_C10_filename_extraction_total.2 true [["models"]] ["models"] "http://h"
    (List.mem_cons_self _ _)

/-- Claim C1 (amended): on an invocation that reaches the alignment step,
`build` spawns zipalign exactly once, with precisely the arguments `-j0`,
the output path, the model path and the argument-manifest path, and a spawn
failure (or an I/O failure while waiting) is fatal; the tool's exit status,
however, is discarded, so every exit code — non-zero included — yields
success. -/
theorem claim_C1_zipalign_contract
    (fs0 : FS) (tempPath llamafilePath zipalignPath : RPath)
    (outputDir outputOpt : Option RPath) (model0 : RPath)
    (releaseFetch : Except BuildErr (List GithubAsset))
    (net : String → Except BuildErr String)
    (en zen : FileEntry) (out : RPath) (name : String)
    (h1 : lookupFS fs0 llamafilePath = some en)
    (h2 : LlamafileBuilder.getOutputPath outputDir model0 outputOpt = Except.ok out)
    (h3 : lookupFS fs0 out = none)
    (h4 : lookupFS fs0 (LlamafileBuilder.argsFilePath tempPath) = none)
    (h5 : LlamafileBuilder.fileName model0 = some name)
    (h6 : lookupFS fs0 zipalignPath = some zen)
    (h7 : out ≠ LlamafileBuilder.argsFilePath tempPath) :
    (∀ run, (LlamafileBuilder.build fs0 tempPath llamafilePath zipalignPath outputDir
        outputOpt model0 releaseFetch net run).2.2
      = [{ program := zipalignPath,
           args := [LlamafileBuilder.CmdArg.lit "-j0", LlamafileBuilder.CmdArg.path out,
             LlamafileBuilder.CmdArg.path model0,
             LlamafileBuilder.CmdArg.path (LlamafileBuilder.argsFilePath tempPath)] }]) ∧
    (LlamafileBuilder.build fs0 tempPath llamafilePath zipalignPath outputDir
        outputOpt model0 releaseFetch net LlamafileBuilder.SpawnOutcome.spawnFail).1
      = Except.error BuildErr.spawnError ∧
    (∀ code : Int,
      (LlamafileBuilder.build fs0 tempPath llamafilePath zipalignPath outputDir
          outputOpt model0 releaseFetch net (LlamafileBuilder.SpawnOutcome.exited code)).1
        = Except.ok ()) := by
  have H := build_reaches_spawn fs0 tempPath llamafilePath zipalignPath outputDir outputOpt
    model0 releaseFetch net en zen out name h1 h2 h3 h4 h5 h6 h7
  refine ⟨fun run => ?_, ?_, fun code => ?_⟩
  · cases run <;> rw [H _]
  · rw [H _]
  · rw [H _]

/-- Witness for C1 at concrete inputs. -/
theorem claim_C1_zipalign_contract_witness :
    ((LlamafileBuilder.build
        [(["t", "llamafile-server"], { content := "L", exec := false }),
         (["t", "zipalign"], { content := "Z", exec := false })]
        ["t"] ["t", "llamafile-server"] ["t", "zipalign"]
        none (some ["o", "bin"]) ["m", "a.gguf"]
        (Except.ok []) (fun _ => Except.error BuildErr.networkError)
        LlamafileBuilder.SpawnOutcome.waitFail).2.2
      = [{ program := ["t", "zipalign"],
           args := [LlamafileBuilder.CmdArg.lit "-j0",
             LlamafileBuilder.CmdArg.path ["o", "bin"],
             LlamafileBuilder.CmdArg.path ["m", "a.gguf"],
             LlamafileBuilder.CmdArg.path (LlamafileBuilder.argsFilePath ["t"])] }]) ∧
    (LlamafileBuilder.build
        [(["t", "llamafile-server"], { content := "L", exec := false }),
         (["t", "zipalign"], { content := "Z", exec := false })]
        ["t"] ["t", "llamafile-server"] ["t", "zipalign"]
        none (some ["o", "bin"]) ["m", "a.gguf"]
        (Except.ok []) (fun _ => Except.error BuildErr.networkError)
        LlamafileBuilder.SpawnOutcome.spawnFail).1
      = Except.error BuildErr.spawnError ∧
    (LlamafileBuilder.build
        [(["t", "llamafile-server"], { content := "L", exec := false }),
         (["t", "zipalign"], { content := "Z", exec := false })]
        ["t"] ["t", "llamafile-server"] ["t", "zipalign"]
        none (some ["o", "bin"]) ["m", "a.gguf"]
        (Except.ok []) (fun _ => Except.error BuildErr.networkError)
        (LlamafileBuilder.SpawnOutcome.exited 1)).1
      = Except.ok () := by
  have H := claim_C1_zipalign_contract
    [(["t", "llamafile-server"], { content := "L", exec := false }),
     (["t", "zipalign"], { content := "Z", exec := false })]
    ["t"] ["t", "llamafile-server"] ["t", "zipalign"]
    none (some ["o", "bin"]) ["m", "a.gguf"]
    (Except.ok []) (fun _ => Except.error BuildErr.networkError)
    { content := "L", exec := false } { content := "Z", exec := false }
    ["o", "bin"] "a.gguf" rfl rfl rfl rfl rfl rfl (by decide)
  exact ⟨H.1 LlamafileBuilder.SpawnOutcome.waitFail, H.2.1, H.2.2 1⟩

/-- Counterexample to C1 as stated: at this concrete invocation the
alignment tool exits with status 1 (non-zero), yet `build` returns
success — the exit status of `.spawn()?.wait().await?` is never
inspected. -/
theorem claim_C1_exit_status_ignored :
    (LlamafileBuilder.build
        [(["tmp", "llamafile-server"], { content := "LF", exec := false }),
         (["tmp", "zipalign"], { content := "ZA", exec := false })]
        ["tmp"] ["tmp", "llamafile-server"] ["tmp", "zipalign"]
        none (some ["out", "mybin"]) ["models", "w.gguf"]
        (Except.ok []) (fun _ => Except.error BuildErr.networkError)
        (LlamafileBuilder.SpawnOutcome.exited 1)).1
      = Except.ok () := rfl

/-- Claim C5: `build` never overwrites.  If the resolved output path is
already occupied, `build` fails with the already-exists error and the
occupying entry is untouched; likewise, if the `.args` path is already
occupied, `build` fails with the already-exists error and that entry is
untouched. -/
theorem claim_C5_never_overwrites :
    (∀ (fs0 : FS) (tempPath llamafilePath zipalignPath : RPath)
        (outputDir outputOpt : Option RPath) (model0 : RPath)
        (releaseFetch : Except BuildErr (List GithubAsset))
        (net : String → Except BuildErr String)
        (run : LlamafileBuilder.SpawnOutcome) (en oe : FileEntry) (out : RPath),
      lookupFS fs0 llamafilePath = some en →
      LlamafileBuilder.getOutputPath outputDir model0 outputOpt = Except.ok out →
      lookupFS fs0 out = some oe →
        (LlamafileBuilder.build fs0 tempPath llamafilePath zipalignPath outputDir
            outputOpt model0 releaseFetch net run).1
          = Except.error BuildErr.alreadyExists ∧
        lookupFS (LlamafileBuilder.build fs0 tempPath llamafilePath zipalignPath outputDir
            outputOpt model0 releaseFetch net run).2.1 out
          = some oe) ∧
    (∀ (fs0 : FS) (tempPath llamafilePath zipalignPath : RPath)
        (outputDir outputOpt : Option RPath) (model0 : RPath)
        (releaseFetch : Except BuildErr (List GithubAsset))
        (net : String → Except BuildErr String)
        (run : LlamafileBuilder.SpawnOutcome) (en ae : FileEntry) (out : RPath),
      lookupFS fs0 llamafilePath = some en →
      LlamafileBuilder.getOutputPath outputDir model0 outputOpt = Except.ok out →
      lookupFS fs0 out = none →
      lookupFS fs0 (LlamafileBuilder.argsFilePath tempPath) = some ae →
        (LlamafileBuilder.build fs0 tempPath llamafilePath zipalignPath outputDir
            outputOpt model0 releaseFetch net run).1
          = Except.error BuildErr.alreadyExists ∧
        lookupFS (LlamafileBuilder.build fs0 tempPath llamafilePath zipalignPath outputDir
            outputOpt model0 releaseFetch net run).2.1
            (LlamafileBuilder.argsFilePath tempPath)
          = some ae) := by
  constructor
  · intro fs0 tempPath llamafilePath zipalignPath outputDir outputOpt model0
      releaseFetch net run en oe out h1 h2 h3
    have e1 : existsFS fs0 llamafilePath = true := existsFS_eq_true _ _ _ h1
    have eo : existsFS fs0 out = true := existsFS_eq_true _ _ _ h3
    simp only [LlamafileBuilder.build, e1, h1, h2, eo, if_true, ite_true]
    exact ⟨trivial, h3⟩
  · intro fs0 tempPath llamafilePath zipalignPath outputDir outputOpt model0
      releaseFetch net run en ae out h1 h2 h3 h4
    have e1 : existsFS fs0 llamafilePath = true := existsFS_eq_true _ _ _ h1
    have eo : existsFS fs0 out = false := existsFS_eq_false _ _ h3
    have hoa : ¬(out = LlamafileBuilder.argsFilePath tempPath) := by
      intro e
      rw [e, h4] at h3
      exact Option.noConfusion h3
    have hl2 : lookupFS (writeFile fs0 out { content := en.content, exec := true })
        (LlamafileBuilder.argsFilePath tempPath) = some ae := by
      rw [lookupFS_writeFile, if_neg hoa, h4]
    have e3 : existsFS (writeFile fs0 out { content := en.content, exec := true })
        (LlamafileBuilder.argsFilePath tempPath) = true := existsFS_eq_true _ _ _ hl2
    simp only [LlamafileBuilder.build, e1, h1, h2, eo, e3, if_true, if_false,
      ite_true, ite_false, Bool.false_eq_true]
    exact ⟨trivial, hl2⟩

/-- Witness for C5 at concrete inputs: an occupied output path, then an
occupied `.args` path, each make the concrete build fail without touching
the occupying entry. -/
theorem claim_C5_never_overwrites_witness :
    ((LlamafileBuilder.build
        [(["t", "llamafile-server"], { content := "L", exec := false }),
         (["o", "bin"], { content := "OLD", exec := false })]
        ["t"] ["t", "llamafile-server"] ["t", "zipalign"]
        none (some ["o", "bin"]) ["m", "a.gguf"]
        (Except.ok []) (fun _ => Except.error BuildErr.networkError)
        (LlamafileBuilder.SpawnOutcome.exited 0)).1
      = Except.error BuildErr.alreadyExists ∧
    lookupFS (LlamafileBuilder.build
        [(["t", "llamafile-server"], { content := "L", exec := false }),
         (["o", "bin"], { content := "OLD", exec := false })]
        ["t"] ["t", "llamafile-server"] ["t", "zipalign"]
        none (some ["o", "bin"]) ["m", "a.gguf"]
        (Except.ok []) (fun _ => Except.error BuildErr.networkError)
        (LlamafileBuilder.SpawnOutcome.exited 0)).2.1 ["o", "bin"]
      = some { content := "OLD", exec := false }) ∧
    ((LlamafileBuilder.build
        [(["t", "llamafile-server"], { content := "L", exec := false }),
         (["t", ".args"], { content := "OLDARGS", exec := false })]
        ["t"] ["t", "llamafile-server"] ["t", "zipalign"]
        none (some ["o", "bin"]) ["m", "a.gguf"]
        (Except.ok []) (fun _ => Except.error BuildErr.networkError)
        (LlamafileBuilder.SpawnOutcome.exited 0)).1
      = Except.error BuildErr.alreadyExists ∧
    lookupFS (LlamafileBuilder.build
        [(["t", "llamafile-server"], { content := "L", exec := false }),
         (["t", ".args"], { content := "OLDARGS", exec := false })]
        ["t"] ["t", "llamafile-server"] ["t", "zipalign"]
        none (some ["o", "bin"]) ["m", "a.gguf"]
        (Except.ok []) (fun _ => Except.error BuildErr.networkError)
        (LlamafileBuilder.SpawnOutcome.exited 0)).2.1
        (LlamafileBuilder.argsFilePath ["t"])
      = some { content := "OLDARGS", exec := false }) :=
  ⟨claim_C5_never_overwrites.1
      [(["t", "llamafile-server"], { content := "L", exec := false }),
       (["o", "bin"], { content := "OLD", exec := false })]
      ["t"] ["t", "llamafile-server"] ["t", "zipalign"]
      none (some ["o", "bin"]) ["m", "a.gguf"]
      (Except.ok []) (fun _ => Except.error BuildErr.networkError)
      (LlamafileBuilder.SpawnOutcome.exited 0)
      { content := "L", exec := false } { content := "OLD", exec := false }
      ["o", "bin"] rfl rfl rfl,
   claim_C5_never_overwrites.2
      [(["t", "llamafile-server"], { content := "L", exec := false }),
       (["t", ".args"], { content := "OLDARGS", exec := false })]
      ["t"] ["t", "llamafile-server"] ["t", "zipalign"]
      none (some ["o", "bin"]) ["m", "a.gguf"]
      (Except.ok []) (fun _ => Except.error BuildErr.networkError)
      (LlamafileBuilder.SpawnOutcome.exited 0)
      { content := "L", exec := false } { content := "OLDARGS", exec := false }
      ["o", "bin"] rfl rfl rfl rfl⟩

/-- Claim C8 (amended): the `.args` manifest is created inside the
builder's temporary directory (`temp_path/.args`), not alongside the
assembled executable, holding one item per line with a leading empty line:
empty, `-m`, the primary model's file name, `--host`, `0.0.0.0`. -/
theorem claim_C8_args_manifest
    (fs0 : FS) (tempPath llamafilePath zipalignPath : RPath)
    (outputDir outputOpt : Option RPath) (model0 : RPath)
    (releaseFetch : Except BuildErr (List GithubAsset))
    (net : String → Except BuildErr String)
    (en zen : FileEntry) (out : RPath) (name : String)
    (h1 : lookupFS fs0 llamafilePath = some en)
    (h2 : LlamafileBuilder.getOutputPath outputDir model0 outputOpt = Except.ok out)
    (h3 : lookupFS fs0 out = none)
    (h4 : lookupFS fs0 (LlamafileBuilder.argsFilePath tempPath) = none)
    (h5 : LlamafileBuilder.fileName model0 = some name)
    (h6 : lookupFS fs0 zipalignPath = some zen)
    (h7 : out ≠ LlamafileBuilder.argsFilePath tempPath)
    (hnl : '\n' ∉ name.data) (code : Int) :
    lookupFS (LlamafileBuilder.build fs0 tempPath llamafilePath zipalignPath outputDir
        outputOpt model0 releaseFetch net (LlamafileBuilder.SpawnOutcome.exited code)).2.1
        (LlamafileBuilder.argsFilePath tempPath)
      = some { content := LlamafileBuilder.argsFileContent name, exec := false } ∧
    linesOf (LlamafileBuilder.argsFileContent name)
      = ["", "-m", name, "--host", "0.0.0.0", ""] := by
  have hza : ¬(zipalignPath = LlamafileBuilder.argsFilePath tempPath) := by
    intro e
    rw [e, h4] at h6
    exact Option.noConfusion h6
  constructor
  · rw [build_reaches_spawn fs0 tempPath llamafilePath zipalignPath outputDir outputOpt
      model0 releaseFetch net en zen out name h1 h2 h3 h4 h5 h6 h7]
    rw [lookupFS_setExecFS, lookupFS_writeFile, if_pos rfl]
    simp [hza]
  · exact linesOf_argsFileContent name hnl

/-- Witness for C8 at concrete inputs. -/
theorem claim_C8_args_manifest_witness :
    lookupFS (LlamafileBuilder.build
        [(["t", "llamafile-server"], { content := "L", exec := false }),
         (["t", "zipalign"], { content := "Z", exec := false })]
        ["t"] ["t", "llamafile-server"] ["t", "zipalign"]
        none (some ["o", "bin"]) ["m", "a.gguf"]
        (Except.ok []) (fun _ => Except.error BuildErr.networkError)
        (LlamafileBuilder.SpawnOutcome.exited 0)).2.1
        (LlamafileBuilder.argsFilePath ["t"])
      = some { content := LlamafileBuilder.argsFileContent "a.gguf", exec := false } ∧
    linesOf (LlamafileBuilder.argsFileContent "a.gguf")
      = ["", "-m", "a.gguf", "--host", "0.0.0.0", ""] :=
  claim_C8_args_manifest
    [(["t", "llamafile-server"], { content := "L", exec := false }),
     (["t", "zipalign"], { content := "Z", exec := false })]
    ["t"] ["t", "llamafile-server"] ["t", "zipalign"]
    none (some ["o", "bin"]) ["m", "a.gguf"]
    (Except.ok []) (fun _ => Except.error BuildErr.networkError)
    { content := "L", exec := false } { content := "Z", exec := false }
    ["o", "bin"] "a.gguf" rfl rfl rfl rfl rfl rfl (by decide) (by decide) 0

/-- Counterexample to C8 as stated: in this successful concrete build the
`.args` file is not alongside the assembled executable (nothing exists at
`out/.args`; the manifest sits at `tmp/.args`), and its lines are not
exactly the four arguments — the file opens with an empty line. -/
theorem claim_C8_args_location_content :
    lookupFS (LlamafileBuilder.build
        [(["tmp", "llamafile-server"], { content := "LF", exec := false }),
         (["tmp", "zipalign"], { content := "ZA", exec := false })]
        ["tmp"] ["tmp", "llamafile-server"] ["tmp", "zipalign"]
        none (some ["out", "mybin"]) ["models", "w.gguf"]
        (Except.ok []) (fun _ => Except.error BuildErr.networkError)
        (LlamafileBuilder.SpawnOutcome.exited 0)).2.1 ["out", ".args"]
      = none ∧
    lookupFS (LlamafileBuilder.build
        [(["tmp", "llamafile-server"], { content := "LF", exec := false }),
         (["tmp", "zipalign"], { content := "ZA", exec := false })]
        ["tmp"] ["tmp", "llamafile-server"] ["tmp", "zipalign"]
        none (some ["out", "mybin"]) ["models", "w.gguf"]
        (Except.ok []) (fun _ => Except.error BuildErr.networkError)
        (LlamafileBuilder.SpawnOutcome.exited 0)).2.1 ["tmp", ".args"]
      = some { content := "\n-m\nw.gguf\n--host\n0.0.0.0\n", exec := false } ∧
    linesOf "\n-m\nw.gguf\n--host\n0.0.0.0\n" ≠ ["-m", "w.gguf", "--host", "0.0.0.0"] := by
  refine ⟨rfl, rfl, ?_⟩
  decide

/-- Claim C4 (amended): acquiring the serving executable or the alignment
tool on a cache miss checks the target path first, queries the latest
release, resolves the first prefix-matching asset and downloads its
`browser_download_url` into the path — but only the CLI helper
(`download_llamafile_release`) sets the executable bit; the builder's
helper (`download_llamafile_github_release_into`) downloads with the
executable bit not requested. -/
theorem claim_C4_release_acquisition :
    (∀ (fs : FS) (path : RPath) (pre : String)
        (releaseFetch : Except BuildErr (List GithubAsset))
        (net : String → Except BuildErr String) (e : FileEntry),
      lookupFS fs path = some e →
      LlamafileBuilder.download_llamafile_github_release_into fs path pre releaseFetch net
        = Except.error BuildErr.alreadyExists) ∧
    (∀ (fs : FS) (path : RPath) (pre : String) (assets : List GithubAsset)
        (asset : GithubAsset) (net : String → Except BuildErr String) (c : String),
      existsFS fs path = false →
      resolveAsset assets pre = some asset →
      net asset.browser_download_url = Except.ok c →
      LlamafileBuilder.download_llamafile_github_release_into fs path pre
          (Except.ok assets) net
        = Except.ok (writeFile fs path { content := c, exec := false })) ∧
    (∀ (fs : FS) (path : RPath) (pre : String) (assets : List GithubAsset)
        (asset : GithubAsset) (net : String → Except BuildErr String) (c : String),
      resolveAsset assets pre = some asset →
      net asset.browser_download_url = Except.ok c →
      MainSrc.download_llamafile_release fs path pre (Except.ok assets) net
        = Except.ok (writeFile fs path { content := c, exec := true }, path)) ∧
    (∀ (fs : FS) (llamaPath : RPath) (downloadFlag : Bool)
        (releaseFetch : Except BuildErr (List GithubAsset))
        (net : String → Except BuildErr String) (e : FileEntry),
      lookupFS fs llamaPath = some e →
      MainSrc.acquireLlamafileServer fs llamaPath downloadFlag releaseFetch net
        = Except.ok (fs, llamaPath)) := by
  refine ⟨?_, ?_, ?_, ?_⟩
  · intro fs path pre releaseFetch net e he
    simp only [LlamafileBuilder.download_llamafile_github_release_into,
      existsFS_eq_true _ _ _ he, ite_true, if_true]
  · intro fs path pre assets asset net c hfs hres hnet
    simp only [LlamafileBuilder.download_llamafile_github_release_into, hfs,
      Bool.false_eq_true, ite_false, if_false]
    simp [hres, hnet, downloadTo]
  · intro fs path pre assets asset net c hres hnet
    simp only [MainSrc.download_llamafile_release]
    simp [hres, hnet, downloadTo]
  · intro fs llamaPath downloadFlag releaseFetch net e he
    simp only [MainSrc.acquireLlamafileServer, existsFS_eq_true _ _ _ he, ite_true, if_true]

/-- Witness for C4 at concrete inputs. -/
theorem claim_C4_release_acquisition_witness :
    (LlamafileBuilder.download_llamafile_github_release_into
        [(["t", "zipalign"], { content := "OLD", exec := false })] ["t", "zipalign"]
        "zipalign" (Except.ok []) (fun _ => Except.ok "BIN")
      = Except.error BuildErr.alreadyExists) ∧
    (LlamafileBuilder.download_llamafile_github_release_into [] ["t", "zipalign"]
        "zipalign"
        (Except.ok [{ name := "zipalign-linux", browser_download_url := "u1" }])
        (fun _ => Except.ok "BIN")
      = Except.ok (writeFile [] ["t", "zipalign"] { content := "BIN", exec := false })) ∧
    (MainSrc.download_llamafile_release [] ["d", "llamafile-server"] "llamafile-server"
        (Except.ok [{ name := "llamafile-server-v1", browser_download_url := "u2" }])
        (fun _ => Except.ok "BIN")
      = Except.ok (writeFile [] ["d", "llamafile-server"]
          { content := "BIN", exec := true }, ["d", "llamafile-server"])) ∧
    (MainSrc.acquireLlamafileServer
        [(["d", "llamafile-server"], { content := "BIN", exec := true })]
        ["d", "llamafile-server"] true (Except.ok []) (fun _ => Except.ok "BIN")
      = Except.ok ([(["d", "llamafile-server"], { content := "BIN", exec := true })],
          ["d", "llamafile-server"])) :=
  ⟨claim_C4_release_acquisition.1 _ ["t", "zipalign"] "zipalign" (Except.ok [])
      (fun _ => Except.ok "BIN") { content := "OLD", exec := false } rfl,
   claim_C4_release_acquisition.2.1 [] ["t", "zipalign"] "zipalign"
      [{ name := "zipalign-linux", browser_download_url := "u1" }]
      { name := "zipalign-linux", browser_download_url := "u1" }
      (fun _ => Except.ok "BIN") "BIN" rfl rfl rfl,
   claim_C4_release_acquisition.2.2.1 [] ["d", "llamafile-server"] "llamafile-server"
      [{ name := "llamafile-server-v1", browser_download_url := "u2" }]
      { name := "llamafile-server-v1", browser_download_url := "u2" }
      (fun _ => Except.ok "BIN") "BIN" rfl rfl,
   claim_C4_release_acquisition.2.2.2 _ ["d", "llamafile-server"] true (Except.ok [])
      (fun _ => Except.ok "BIN") { content := "BIN", exec := true } rfl⟩

/-- Counterexample to C4 as stated: the builder's cache-miss download
places the asset body at the target path with the executable bit NOT set
(`download_to(..., false)` in `download_llamafile_github_release_into`),
contradicting "with the executable permission bit set on the resulting
file". -/
theorem claim_C4_no_exec_bit_in_builder :
    (LlamafileBuilder.download_llamafile_github_release_into [] ["t", "zipalign"]
        "zipalign"
        (Except.ok [{ name := "zipalign-linux", browser_download_url := "u1" }])
        (fun _ => Except.ok "BIN")).map
      (fun fs1 => (lookupFS fs1 ["t", "zipalign"]).map FileEntry.exec)
    = Except.ok (some false) := rfl

/-- Claim C3 (amended): for serving executable `srv` and models
`a.gguf`, `b.gguf`, the archive holds exactly the entries
`./llamafile-server` (the fixed in-archive name, not `./srv`),
`./Dockerfile`, `./model-0`, `./model-1`, in that order; the recipe has
exactly one COPY line per model, referencing `model-0` and `model-1`, and
exactly one entrypoint line, which references `model-0` but not
`model-1`. -/
theorem claim_C3_archive_shape :
    (Docker.tarball (fun p => Except.ok p) (Docker.dockerfile ["a.gguf", "b.gguf"])
        ["a.gguf", "b.gguf"] "srv").map (List.map Docker.TarEntry.name)
      = Except.ok ["./llamafile-server", "./Dockerfile", "./model-0", "./model-1"] ∧
    (linesOf (Docker.dockerfile ["a.gguf", "b.gguf"])).count "COPY /model-0 ./model-0" = 1 ∧
    (linesOf (Docker.dockerfile ["a.gguf", "b.gguf"])).count "COPY /model-1 ./model-1" = 1 ∧
    ((linesOf (Docker.dockerfile ["a.gguf", "b.gguf"])).filter
        (fun l => isSeqStart "COPY /model-".data l.data)).length = 2 ∧
    ((linesOf (Docker.dockerfile ["a.gguf", "b.gguf"])).filter
        (fun l => isSeqStart "ENTRYPOINT".data l.data))
      = ["ENTRYPOINT [\"/bin/sh\", \"/usr/src/app/llamafile-server\", \"-m\", \"/usr/src/app/model-0\", \"--host\", \"0.0.0.0\"]"] ∧
    occursIn "model-0".data
      "ENTRYPOINT [\"/bin/sh\", \"/usr/src/app/llamafile-server\", \"-m\", \"/usr/src/app/model-0\", \"--host\", \"0.0.0.0\"]".data
      = true ∧
    occursIn "model-1".data
      "ENTRYPOINT [\"/bin/sh\", \"/usr/src/app/llamafile-server\", \"-m\", \"/usr/src/app/model-0\", \"--host\", \"0.0.0.0\"]".data
      = false :=
  ⟨rfl, by decide, by decide, by decide, by decide, rfl, rfl⟩

/-- Counterexample to C3 as stated: the first archive entry is the fixed
name `./llamafile-server`, not `./srv` derived from the input. -/
theorem claim_C3_first_entry_name :
    ¬ ((Docker.tarball (fun p => Except.ok p) (Docker.dockerfile ["a.gguf", "b.gguf"])
        ["a.gguf", "b.gguf"] "srv").map (List.map Docker.TarEntry.name)
      = Except.ok ["./srv", "./Dockerfile", "./model-0", "./model-1"]) := by
  intro h
  rw [show (Docker.tarball (fun p => Except.ok p) (Docker.dockerfile ["a.gguf", "b.gguf"])
      ["a.gguf", "b.gguf"] "srv").map (List.map Docker.TarEntry.name)
    = Except.ok ["./llamafile-server", "./Dockerfile", "./model-0", "./model-1"] from rfl] at h
  exact absurd (Except.ok.inj h) (by decide)

/-- Claim C9 (amended): whenever the tarball is assembled, `build_image`
relays every Ok stream item as an informational event and every Err item as
an error event, in order and without aborting — and then returns success
unconditionally at stream completion, whatever the daemon reported. -/
theorem claim_C9_log_relay :
    ∀ (readFile : String → Except BuildErr String) (image_name : String)
      (model_path : List String) (llama_path : String)
      (stream : List (Except String String)) (tb : List Docker.TarEntry),
      Docker.tarball readFile (Docker.dockerfile model_path) model_path llama_path
          = Except.ok tb →
      Docker.build_image readFile image_name model_path llama_path stream
          = (Except.ok (), Docker.relayStream stream) ∧
      Docker.relayStream stream = stream.map (fun m => match m with
        | Except.ok s => Docker.LogEvent.infoMsg s
        | Except.error e => Docker.LogEvent.errorMsg e) := by
  intro readFile image_name model_path llama_path stream tb htb
  constructor
  · simp only [Docker.build_image, htb]
  · exact relayStream_eq_map stream

/-- Witness for C9 at concrete inputs. -/
theorem claim_C9_log_relay_witness :
    Docker.build_image (fun p => Except.ok p) "img" ["m.gguf"] "srv"
        [Except.ok "step-1", Except.error "bad json"]
      = (Except.ok (), Docker.relayStream [Except.ok "step-1", Except.error "bad json"]) ∧
    Docker.relayStream [Except.ok "step-1", Except.error "bad json"]
      = [Except.ok "step-1", Except.error "bad json"].map (fun m => match m with
        | Except.ok s => Docker.LogEvent.infoMsg s
        | Except.error e => Docker.LogEvent.errorMsg e) :=
  claim_C9_log_relay (fun p => Except.ok p) "img" ["m.gguf"] "srv"
    [Except.ok "step-1", Except.error "bad json"]
    [{ name := "./llamafile-server", content := "srv", mode := none },
     { name := "./Dockerfile", content := Docker.dockerfile ["m.gguf"], mode := some 0o755 },
     { name := "./model-0", content := "m.gguf", mode := none }] rfl

/-- Counterexample to C9 as stated: the stream ends with the daemon
reporting a failure, yet `build_image` returns success — the function's
result never reflects the daemon's outcome. -/
theorem claim_C9_failure_still_ok :
    Docker.build_image (fun p => Except.ok p) "img" ["m.gguf"] "srv"
        [Except.error "daemon: build failed"]
      = (Except.ok (), [Docker.LogEvent.errorMsg "daemon: build failed"]) := rfl
